import Mathlib

/-!
# Prometheus adapter: query translation

A shallow embedding of the two translators of the adapter:

* `metric/prometheus_provider.go`: `buildPromQL`, which turns a metric query
  into a PromQL expression, `convertResult`, `Describe` and the constructor;
* `alert/prometheus_provider.go`: `Query` with its filters and its limit, the
  lookup of `Get`, the record conversion `convertAlertmanagerAlert`, the two
  status mappings and the constructor.

Go strings are embedded as Lean strings (sequences of Unicode scalar values),
Go slices as lists, Go maps as association lists read with `List.lookup`, and a
Go `(value, error)` result as `Except String value`, the string being the
error message; where a call can panic its outcome is a `GoResult`.
-/

namespace Prometheus

/-! ## Shared data model (package `schema`) -/

/-- Dynamic values held by a `map[string]any` bag in this program. -/
inductive GoAny where
  | null : GoAny
  | bool (b : Bool) : GoAny
  | num (n : Int) : GoAny
  | str (s : String) : GoAny
  | strMap (m : List (String × String)) : GoAny
  deriving DecidableEq, Repr

deriving instance DecidableEq for Except

/-- Go map with string keys, as an association list. -/
abbrev GoMap (V : Type) := List (String × V)

/-- Comma-ok type assertion `v.(string)` applied to the result of indexing a
`map[string]any`: an absent key indexes to the nil interface, on which the
assertion fails; a failed assertion yields the empty string and `false`. -/
def assertString : Option GoAny → String × Bool
  | some (GoAny.str s) => (s, true)
  | _ => ("", false)

/-- Indexing a `map[string]string`: an absent key yields the empty string. -/
def indexStr (m : GoMap String) (k : String) : String :=
  (m.lookup k).getD ""

/-- Instant of time, in nanoseconds since January 1 of year 1, 00:00:00 UTC;
`Time.zero` is the zero value of Go's `time.Time`. -/
structure Time where
  nsec : Int
  deriving DecidableEq, Repr

/-- Zero value of `time.Time`. -/
def Time.zero : Time := ⟨0⟩

/-- Function `time.Unix(sec, nsec)`: the Unix epoch is 62135596800 seconds
after the zero time. -/
def unixTime (sec nsec : Int) : Time :=
  ⟨(sec + 62135596800) * 1000000000 + nsec⟩

/-- A `float64`, by its bit pattern; the adapter only copies such values. -/
structure Float64 where
  bits : Nat
  deriving DecidableEq, Repr

/-- Assignment `m[k] = v` on a Go map: the value of an existing key is
replaced, a new key is added. -/
def mapSet {V : Type} : GoMap V → String → V → GoMap V
  | [], k, v => [(k, v)]
  | (k0, v0) :: rest, k, v =>
    if k0 = k then (k0, v) :: rest else (k0, v0) :: mapSet rest k v

/-- Scope of a query, `schema.QueryScope`. -/
structure QueryScope where
  Service : String
  Team : String
  Environment : String
  deriving DecidableEq, Repr

/-! ## Formatting helpers of the Go standard library -/

/-- Digits used by `strconv` for hexadecimal escapes. -/
def lowerhex : List Char := "0123456789abcdef".toList

/-- Hexadecimal digit `lowerhex[n & 0xF]`. -/
def hexDigit (n : Nat) : Char := lowerhex.getD (n % 16) '0'

/-- Function `strconv.IsPrint`: the Latin-1 fast path is the code of the
library; the answer for runes above `0xFF` comes from the library's tables,
taken here as the argument `wide`. -/
def IsPrint (wide : Nat → Bool) (r : Char) : Bool :=
  if r.toNat ≤ 0xFF then
    if 0x20 ≤ r.toNat ∧ r.toNat ≤ 0x7E then true
    else if 0xA1 ≤ r.toNat ∧ r.toNat ≤ 0xFF then r.toNat != 0xAD
    else false
  else wide r.toNat

/-- Function `strconv.appendEscapedRune` with quote `"` and both flags false:
the output for one rune of a quoted string. -/
def appendEscapedRune (wide : Nat → Bool) (buf : String) (r : Char) : String :=
  if r = '"' ∨ r = '\\' then (buf.push '\\').push r
  else if IsPrint wide r then buf.push r
  else if r.toNat = 0x07 then buf ++ "\\a"
  else if r.toNat = 0x08 then buf ++ "\\b"
  else if r.toNat = 0x0C then buf ++ "\\f"
  else if r.toNat = 0x0A then buf ++ "\\n"
  else if r.toNat = 0x0D then buf ++ "\\r"
  else if r.toNat = 0x09 then buf ++ "\\t"
  else if r.toNat = 0x0B then buf ++ "\\v"
  else if r.toNat < 0x20 ∨ r.toNat = 0x7F then
    ((buf ++ "\\x").push (hexDigit (r.toNat / 16))).push (hexDigit r.toNat)
  else if r.toNat < 0x10000 then
    [12, 8, 4, 0].foldl (fun b s => b.push (hexDigit (r.toNat / 2 ^ s))) (buf ++ "\\u")
  else
    [28, 24, 20, 16, 12, 8, 4, 0].foldl
      (fun b s => b.push (hexDigit (r.toNat / 2 ^ s))) (buf ++ "\\U")

/-- Verb `%q` of `fmt.Sprintf` on a string, that is `strconv.Quote`: an opening
double quote, every rune through `appendEscapedRune`, a closing double quote.
A Lean string holds Unicode scalar values only, so the library's branch for a
byte that is not valid UTF-8 has no input here. -/
def quote (wide : Nat → Bool) (s : String) : String :=
  (s.toList.foldl (appendEscapedRune wide) "\"").push '"'

/-- Loop `for i, f := range items { if i > 0 { expr += sep }; expr += f }`,
started at index `i` with accumulator `expr`. -/
def appendJoined (sep : String) : List String → Nat → String → String
  | [], _, expr => expr
  | f :: rest, i, expr =>
    appendJoined sep rest (i + 1) ((if i > 0 then expr ++ sep else expr) ++ f)

/-! ## Metric translator (package `metric`) -/

namespace MetricPkg

/-- Label filter of a structured expression, `schema.MetricFilter`. -/
structure MetricFilter where
  Label : String
  Operator : String
  Value : String
  deriving DecidableEq, Repr

/-- Structured expression, `schema.MetricExpression`. -/
structure MetricExpression where
  MetricName : String
  Filters : List MetricFilter
  Aggregation : String
  GroupBy : List String
  deriving DecidableEq, Repr

/-- Metric query, `schema.MetricQuery`; a nil `Expression` pointer is `none`. -/
structure MetricQuery where
  Expression : Option MetricExpression
  Scope : QueryScope
  Start : Time
  End : Time
  Step : Int
  Metadata : GoMap GoAny
  deriving DecidableEq, Repr

/-- Rendering `fmt.Sprintf("%s%s%q", f.Label, f.Operator, f.Value)`. -/
def renderFilter (wide : Nat → Bool) (f : MetricFilter) : String :=
  f.Label ++ f.Operator ++ quote wide f.Value

/-- The slice `filters` of `buildPromQL` once the structured filters and the
three scope filters have been appended. -/
def collectFilters (wide : Nat → Bool) (e : MetricExpression) (sc : QueryScope) :
    List String :=
  let filters : List String := []
  let filters := e.Filters.foldl (fun acc f => acc ++ [renderFilter wide f]) filters
  let filters := if sc.Service ≠ "" then filters ++ ["service=" ++ quote wide sc.Service]
    else filters
  let filters := if sc.Team ≠ "" then filters ++ ["team=" ++ quote wide sc.Team]
    else filters
  let filters := if sc.Environment ≠ "" then filters ++ ["env=" ++ quote wide sc.Environment]
    else filters
  filters

/-- Function `buildPromQL` of `metric/prometheus_provider.go`. -/
def buildPromQL (wide : Nat → Bool) (query : MetricQuery) : Except String String :=
  let (raw, ok) := assertString (query.Metadata.lookup "query")
  if ok ∧ raw ≠ "" then Except.ok raw
  else
    match query.Expression with
    | none => Except.error "missing query expression"
    | some e =>
      let expr := e.MetricName
      let filters := collectFilters wide e query.Scope
      let expr :=
        if filters.length > 0 then
          appendJoined "," filters 0 (expr ++ "\x7b") ++ "\x7d"
        else expr
      let expr :=
        if e.Aggregation ≠ "" then
          let expr := e.Aggregation ++ "(" ++ expr ++ ")"
          if e.GroupBy.length > 0 then
            appendJoined "," e.GroupBy 0 (expr ++ " by (") ++ ")"
          else expr
        else expr
      Except.ok expr

/-- Sample of the backend, `model.SamplePair`: a timestamp in milliseconds since
the Unix epoch (`model.Time`) and a value (`model.SampleValue`). -/
structure SamplePair where
  Timestamp : Int
  Value : Float64
  deriving DecidableEq, Repr

/-- Returned time series, `model.SampleStream`: its label set (`model.Metric`)
and its samples. -/
structure SampleStream where
  Metric : GoMap String
  Values : List SamplePair
  deriving DecidableEq, Repr

/-- Outcome of a Go call with a `(value, error)` result: it returns a value, it
returns an error, or it does not return because of a run-time panic. -/
inductive GoResult (α : Type) where
  | ok (a : α) : GoResult α
  | error (msg : String) : GoResult α
  | panicked (reason : String) : GoResult α
  deriving DecidableEq, Repr

/-- Result value of the backend, the interface `model.Value`: a matrix, one of
the three other result shapes, or the nil interface. A matrix is a slice of
pointers to streams, `[]*SampleStream`; a nil pointer is `none`. -/
inductive Value where
  | matrix (m : List (Option SampleStream)) : Value
  | vector (v : List (GoMap String × SamplePair)) : Value
  | scalar (s : SamplePair) : Value
  | string (value : String) (timestamp : Int) : Value
  | nil : Value
  deriving DecidableEq, Repr

/-- Verb `%T` on a `model.Value`. -/
def Value.typeName : Value → String
  | Value.matrix _ => "model.Matrix"
  | Value.vector _ => "model.Vector"
  | Value.scalar _ => "*model.Scalar"
  | Value.string _ _ => "*model.String"
  | Value.nil => "<nil>"

/-- Method `model.Time.Time`:
`time.Unix(int64(t)/second, (int64(t)%second)*nanosPerTick)` with 1000 ticks
in a second and 1000000 nanoseconds in a tick; Go's `/` and `%` truncate. -/
def modelTimeToTime (t : Int) : Time :=
  unixTime (Int.tdiv t 1000) (Int.tmod t 1000 * 1000000)

/-- Point of a series, `schema.MetricPoint`. -/
structure MetricPoint where
  Timestamp : Time
  Value : Float64
  deriving DecidableEq, Repr

/-- Uniform series, `schema.MetricSeries`, with the fields the adapter sets. -/
structure MetricSeries where
  Name : String
  Labels : GoMap GoAny
  Points : List MetricPoint
  deriving DecidableEq, Repr

/-- Descriptor of a metric, `schema.MetricDescriptor`, with the fields the
adapter sets; `Type_` is the Go field `Type`. -/
structure MetricDescriptor where
  Name : String
  Type_ : String
  deriving DecidableEq, Repr

/-- Body of the loop of `convertResult` for one stream: the series `s` that is
appended. -/
def convertStream (stream : SampleStream) : MetricSeries :=
  let s : MetricSeries :=
    { Name := indexStr stream.Metric "__name__"
      Labels := []
      Points := [] }
  let s := { s with
    Labels := stream.Metric.foldl
      (fun (labels : GoMap GoAny) (kv : String × String) =>
        if kv.1 ≠ "__name__" then mapSet labels kv.1 (GoAny.str kv.2) else labels)
      s.Labels }
  let s := { s with
    Points := stream.Values.foldl
      (fun (points : List MetricPoint) (p : SamplePair) =>
        points ++ [{ Timestamp := modelTimeToTime p.Timestamp, Value := p.Value }])
      s.Points }
  s

/-- Loop `for _, stream := range matrix` of `convertResult`, with the series
collected so far: reading `stream.Metric` through a nil pointer panics, any
other stream is converted and appended. -/
def convertStreams : List (Option SampleStream) → List MetricSeries →
    GoResult (List MetricSeries)
  | [], series => GoResult.ok series
  | none :: _, _ =>
    GoResult.panicked "runtime error: invalid memory address or nil pointer dereference"
  | some stream :: rest, series => convertStreams rest (series ++ [convertStream stream])

/-- Function `convertResult` of `metric/prometheus_provider.go`. -/
def convertResult (val : Value) : GoResult (List MetricSeries) :=
  match val with
  | Value.matrix matrix => convertStreams matrix []
  | other => GoResult.error ("expected matrix result, got " ++ other.typeName)

/-- The method of `v1.API` that `Describe` calls: `LabelValues(ctx, label,
matches, startTime, endTime)` gives the values and the warnings, or an error. -/
structure API where
  LabelValues : String → List String → Time → Time → Except String (List String × List String)

/-- Provider `PrometheusProvider`. -/
structure PrometheusProvider where
  api : API

/-- Function `NewPrometheusProvider`; `NewClient` is `api.NewClient` applied to
the address and `NewAPI` is `v1.NewAPI`. -/
def NewPrometheusProvider {Client : Type} (NewClient : String → Except String Client)
    (NewAPI : Client → API) (config : GoMap GoAny) : Except String PrometheusProvider :=
  let (url, ok) := assertString (config.lookup "url")
  if ¬ ok ∨ url = "" then Except.error "missing required config field: url"
  else
    match NewClient url with
    | Except.error err => Except.error ("failed to create prometheus client: " ++ err)
    | Except.ok client => Except.ok { api := NewAPI client }

/-- Method `PrometheusProvider.Describe`; the scope is an argument the body
does not read. -/
def Describe (p : PrometheusProvider) (_scope : QueryScope) :
    Except String (List MetricDescriptor) :=
  match p.api.LabelValues "__name__" [] Time.zero Time.zero with
  | Except.error err => Except.error ("failed to list metrics: " ++ err)
  | Except.ok (values, _warnings) =>
    let descriptors : List MetricDescriptor := []
    let descriptors := values.foldl
      (fun ds v => ds ++ [{ Name := v, Type_ := "unknown" }]) descriptors
    Except.ok descriptors

end MetricPkg

/-! ## Alert translator (package `alert`) -/

namespace AlertPkg

/-- Alert query, `schema.AlertQuery`. -/
structure AlertQuery where
  Statuses : List String
  Severities : List String
  Scope : QueryScope
  Limit : Int
  deriving DecidableEq, Repr

/-- Uniform alert, `schema.Alert`, with the fields the adapter sets. -/
structure Alert where
  ID : String
  Title : String
  Description : String
  Status : String
  Severity : String
  Service : String
  URL : String
  Fields : GoMap GoAny
  Metadata : GoMap GoAny
  CreatedAt : Time
  UpdatedAt : Time
  deriving DecidableEq, Repr

/-- Record of the Alertmanager API, `alertmanagerAlert`; `State` is the field
`Status.State` of the Go struct. -/
structure alertmanagerAlert where
  Fingerprint : String
  State : String
  Labels : GoMap String
  Annotations : GoMap String
  StartsAt : String
  EndsAt : String
  UpdatedAt : String
  deriving DecidableEq, Repr

/-- Function `mapStatusToAlertmanager`. -/
def mapStatusToAlertmanager (status : String) : String :=
  if status = "firing" ∨ status = "open" ∨ status = "active" then "active"
  else if status = "resolved" ∨ status = "closed" then "suppressed"
  else status

/-- Function `mapAlertmanagerStateToStatus`. -/
def mapAlertmanagerStateToStatus (state : String) : String :=
  if state = "active" then "firing"
  else if state = "suppressed" then "suppressed"
  else if state = "unprocessed" then "pending"
  else state

/-- Function `convertAlertmanagerAlert`; `parseTime s` is the outcome of
`time.Parse(time.RFC3339, s)`, `none` standing for a parse error. -/
def convertAlertmanagerAlert (parseTime : String → Option Time)
    (amAlert : alertmanagerAlert) : Alert :=
  let alert : Alert :=
    { ID := amAlert.Fingerprint
      Title := indexStr amAlert.Labels "alertname"
      Description := indexStr amAlert.Annotations "description"
      Status := mapAlertmanagerStateToStatus amAlert.State
      Severity := indexStr amAlert.Labels "severity"
      Service := indexStr amAlert.Labels "service"
      URL := "/alerting/alerts#" ++ amAlert.Fingerprint
      Fields := [("labels", GoAny.strMap amAlert.Labels),
                 ("annotations", GoAny.strMap amAlert.Annotations)]
      Metadata := [("source", GoAny.str "prometheus"),
                   ("fingerprint", GoAny.str amAlert.Fingerprint)]
      CreatedAt := Time.zero
      UpdatedAt := Time.zero }
  let alert :=
    match parseTime amAlert.StartsAt with
    | some startsAt => { alert with CreatedAt := startsAt }
    | none => alert
  let alert :=
    match parseTime amAlert.UpdatedAt with
    | some updatedAt => { alert with UpdatedAt := updatedAt }
    | none => alert
  alert

/-- Request parameters, `url.Values`: each key with its values in the order
they were added. -/
abbrev Values := GoMap (List String)

/-- Method `url.Values.Add`: `v[key] = append(v[key], value)`. -/
def Values.Add : Values → String → String → Values
  | [], key, value => [(key, [value])]
  | (k, vs) :: rest, key, value =>
    if k = key then (k, vs ++ [value]) :: rest
    else (k, vs) :: Values.Add rest key value

/-- The value `params` of `Query` when the request URL is formatted: the
filters added for the statuses, the severities and the scope. -/
def queryParams (query : AlertQuery) : Values :=
  let params : Values := []
  let params :=
    if query.Statuses.length > 0 then
      query.Statuses.foldl
        (fun ps status =>
          Values.Add ps "filter" ("state=\"" ++ mapStatusToAlertmanager status ++ "\""))
        params
    else params
  let params :=
    if query.Severities.length > 0 then
      query.Severities.foldl
        (fun ps severity => Values.Add ps "filter" ("severity=\"" ++ severity ++ "\""))
        params
    else params
  let params :=
    if query.Scope.Service ≠ "" then
      Values.Add params "filter" ("service=\"" ++ query.Scope.Service ++ "\"")
    else params
  let params :=
    if query.Scope.Team ≠ "" then
      Values.Add params "filter" ("team=\"" ++ query.Scope.Team ++ "\"")
    else params
  let params :=
    if query.Scope.Environment ≠ "" then
      Values.Add params "filter" ("env=\"" ++ query.Scope.Environment ++ "\"")
    else params
  params

/-- Outcome of building and sending one GET request. -/
inductive HttpResult where
  | createError (msg : String) : HttpResult
  | doError (msg : String) : HttpResult
  | response (statusCode : Nat) (body : String) : HttpResult
  deriving DecidableEq, Repr

/-- What the provider reaches through the standard library: sending a GET
request to a URL, decoding a response body as a JSON list of records, parsing
an RFC3339 timestamp, and encoding request parameters. -/
structure Upstream where
  get : String → HttpResult
  decode : String → Except String (List alertmanagerAlert)
  parseTime : String → Option Time
  encode : Values → String

/-- Provider `PrometheusAlertProvider`; its HTTP client is `Upstream.get`. -/
structure PrometheusAlertProvider where
  baseURL : String
  deriving DecidableEq, Repr

/-- Function `NewPrometheusAlertProvider`; the HTTP client it creates is
`Upstream.get`. -/
def NewPrometheusAlertProvider (config : GoMap GoAny) : Except String PrometheusAlertProvider :=
  let (alertmanagerURL, ok) := assertString (config.lookup "alertmanagerURL")
  if ¬ ok ∨ alertmanagerURL = "" then
    Except.error "missing required config field: alertmanagerURL"
  else Except.ok { baseURL := alertmanagerURL }

/-- Constant `http.StatusOK`. -/
def StatusOK : Nat := 200

/-- Request, status check and decoding shared by `Query` and `Get`. -/
def fetchAlerts (up : Upstream) (apiURL : String) : Except String (List alertmanagerAlert) :=
  match up.get apiURL with
  | HttpResult.createError msg => Except.error ("create request: " ++ msg)
  | HttpResult.doError msg => Except.error ("execute request: " ++ msg)
  | HttpResult.response statusCode body =>
    if statusCode ≠ StatusOK then
      Except.error ("alertmanager API error: " ++ toString statusCode ++ " " ++ body)
    else
      match up.decode body with
      | Except.error msg => Except.error ("decode response: " ++ msg)
      | Except.ok amAlerts => Except.ok amAlerts

/-- Method `PrometheusAlertProvider.Query`. -/
def Query (up : Upstream) (p : PrometheusAlertProvider) (query : AlertQuery) :
    Except String (List Alert) :=
  let params := queryParams query
  let apiURL := p.baseURL ++ "/api/v2/alerts?" ++ up.encode params
  match fetchAlerts up apiURL with
  | Except.error msg => Except.error msg
  | Except.ok amAlerts =>
    let alerts := amAlerts.foldl
      (fun acc amAlert => acc ++ [convertAlertmanagerAlert up.parseTime amAlert]) []
    let alerts :=
      if query.Limit > 0 ∧ query.Limit < (alerts.length : Int) then
        alerts.take query.Limit.toNat
      else alerts
    Except.ok alerts

/-- Loop of `Get` over the decoded records: the conversion of the first record
whose fingerprint is `id`, or the not-found error after the last record. -/
def scanForFingerprint (parseTime : String → Option Time) (id : String) :
    List alertmanagerAlert → Except String Alert
  | [] => Except.error ("alert not found: " ++ id)
  | amAlert :: rest =>
    if amAlert.Fingerprint = id then Except.ok (convertAlertmanagerAlert parseTime amAlert)
    else scanForFingerprint parseTime id rest

/-- Method `PrometheusAlertProvider.Get`. -/
def Get (up : Upstream) (p : PrometheusAlertProvider) (id : String) : Except String Alert :=
  let apiURL := p.baseURL ++ "/api/v2/alerts"
  match fetchAlerts up apiURL with
  | Except.error msg => Except.error msg
  | Except.ok amAlerts => scanForFingerprint up.parseTime id amAlerts

end AlertPkg

/-! ## Specification vocabulary -/

/-- The metadata bag holds the non-empty string `raw` under the key `query`. -/
def HasRawQuery (md : GoMap GoAny) (raw : String) : Prop :=
  md.lookup "query" = some (GoAny.str raw) ∧ raw ≠ ""

instance (md : GoMap GoAny) (raw : String) : Decidable (HasRawQuery md raw) := by
  unfold HasRawQuery
  infer_instance

/-- The metadata bag has no non-empty string under the key `query`: the key is
absent, or its value is not a string, or its value is the empty string. -/
def NoRawQuery (md : GoMap GoAny) : Prop :=
  md.lookup "query" = none ∨
  (∃ v, md.lookup "query" = some v ∧ ∀ s, v ≠ GoAny.str s) ∨
  md.lookup "query" = some (GoAny.str "")

/-- Brace clause as the specification words it: nothing for no items, else the
items joined by commas between braces. -/
def braceClause (items : List String) : String :=
  if items = [] then "" else "\x7b" ++ ",".intercalate items ++ "\x7d"

/-- Filter as the specification words it: label, operator, then the value
unchanged between two double quotes. -/
def verbatimFilter (f : MetricPkg.MetricFilter) : String :=
  f.Label ++ f.Operator ++ "\"" ++ f.Value ++ "\""

/-- A value that `%q` leaves as it is: every character is printable and none is
a double quote or a backslash. -/
def PlainValue (wide : Nat → Bool) (v : String) : Prop :=
  ∀ c ∈ v.toList, IsPrint wide c = true ∧ c ≠ '"' ∧ c ≠ '\\'

instance (wide : Nat → Bool) (v : String) : Decidable (PlainValue wide v) := by
  unfold PlainValue
  infer_instance

/-- The string `s` ends with `suffix`. -/
def EndsWith (s suffix : String) : Prop := suffix.toList <:+ s.toList

instance (s suffix : String) : Decidable (EndsWith s suffix) := by
  unfold EndsWith
  infer_instance

/-- Request parameters holding the filter values `items` under the key
`filter` and nothing else; no key at all when there is no value. -/
def filterParams (items : List String) : AlertPkg.Values :=
  if items = [] then [] else [("filter", items)]

/-- Three upstream records, the one with fingerprint `target123` in the middle. -/
def sampleRecords : List AlertPkg.alertmanagerAlert :=
  [ ⟨"other456", "active", [("alertname", "OtherAlert")], [],
      "2025-12-03T11:00:00Z", "", "2025-12-03T11:05:00Z"⟩,
    ⟨"target123", "active", [("alertname", "TargetAlert"), ("severity", "warning")],
      [("description", "Target alert description")],
      "2025-12-03T10:00:00Z", "", "2025-12-03T10:05:00Z"⟩,
    ⟨"last789", "suppressed", [], [], "", "", ""⟩ ]

/-- An upstream that answers every request with status 200 and `sampleRecords`. -/
def sampleUpstream : AlertPkg.Upstream where
  get := fun _ => AlertPkg.HttpResult.response 200 "body"
  decode := fun _ => Except.ok sampleRecords
  parseTime := fun _ => none
  encode := fun _ => ""

/-- A stand-in for `url.Values.Encode` in examples: the pairs `key=value` in
order, joined by `&`, with no escaping. -/
def plainEncode (v : AlertPkg.Values) : String :=
  "&".intercalate (v.map (fun kv => kv.2.map (fun x => kv.1 ++ "=" ++ x))).flatten

/-- An upstream that answers with status 200 and `sampleRecords` the one
request that carries the filters of three statuses, one severity, a service and
an environment, and fails to send any other request. -/
def filterUpstream : AlertPkg.Upstream where
  get := fun url =>
    if url = "http://am/api/v2/alerts?filter=state=\"active\"&filter=state=\"suppressed\""
        ++ "&filter=state=\"acknowledged\"&filter=severity=\"critical\""
        ++ "&filter=service=\"api\"&filter=env=\"prod\""
    then AlertPkg.HttpResult.response 200 "body"
    else AlertPkg.HttpResult.doError "unexpected request"
  decode := fun _ => Except.ok sampleRecords
  parseTime := fun _ => none
  encode := plainEncode

/-- The configuration bag has no non-empty string under `key`: the key is
absent, or its value is not a string, or its value is the empty string. -/
def NoStringAt (config : GoMap GoAny) (key : String) : Prop :=
  config.lookup key = none ∨
  (∃ v, config.lookup key = some v ∧ ∀ s, v ≠ GoAny.str s) ∨
  config.lookup key = some (GoAny.str "")

/-- The keys of a Go map are pairwise distinct. -/
def DistinctKeys {V : Type} (m : GoMap V) : Prop := (m.map Prod.fst).Nodup

instance {V : Type} (m : GoMap V) : Decidable (DistinctKeys m) := by
  unfold DistinctKeys
  infer_instance

/-- The stream of the repository's test: `http_requests_total` with the label
`method` and two samples. -/
def sampleStream : MetricPkg.SampleStream :=
  ⟨[("__name__", "http_requests_total"), ("method", "POST")],
    [⟨1696118400000, ⟨10⟩⟩, ⟨1696118460000, ⟨20⟩⟩]⟩

/-- A metric API whose label-values call returns the two names of the
repository's test. -/
def sampleAPI : MetricPkg.API where
  LabelValues := fun _ _ _ _ => Except.ok (["http_requests_total", "go_goroutines"], [])

/-! ## Lemmas on the helpers -/

theorem foldl_sep_append (sep acc : String) (items : List String) (f : String) :
    items.foldl (fun a x => a ++ sep ++ x) (acc ++ f)
      = acc ++ items.foldl (fun a x => a ++ sep ++ x) f := by
  induction items generalizing f with
  | nil => rfl
  | cons x rest ih =>
    simp only [List.foldl_cons]
    rw [← ih]
    simp [String.append_assoc]

theorem intercalate_go_eq_foldl (sep acc : String) (items : List String) :
    String.intercalate.go acc sep items = items.foldl (fun a x => a ++ sep ++ x) acc := by
  induction items generalizing acc with
  | nil => rfl
  | cons x rest ih => simp [String.intercalate.go, ih]

theorem appendJoined_succ (sep acc : String) (items : List String) (i : Nat) :
    appendJoined sep items (i + 1) acc = items.foldl (fun a x => a ++ sep ++ x) acc := by
  induction items generalizing acc i with
  | nil => rfl
  | cons x rest ih => simp [appendJoined, ih]

/-- The joining loop started at index 0 appends the items separated by `sep`. -/
theorem appendJoined_zero (sep acc : String) (items : List String) :
    appendJoined sep items 0 acc = acc ++ sep.intercalate items := by
  cases items with
  | nil => simp [appendJoined, String.intercalate]
  | cons x rest =>
    simp [appendJoined, String.intercalate, appendJoined_succ, intercalate_go_eq_foldl,
      foldl_sep_append]

theorem append_braceClause (m : String) (items : List String) :
    m ++ braceClause items
      = if items = [] then m else m ++ "\x7b" ++ ",".intercalate items ++ "\x7d" := by
  unfold braceClause
  by_cases h : items = [] <;> simp [h, String.append_assoc]

theorem foldl_snoc_map {α : Type} (g : α → String) (init : List String) (l : List α) :
    l.foldl (fun acc f => acc ++ [g f]) init = init ++ l.map g := by
  induction l generalizing init with
  | nil => simp
  | cons x rest ih => simp [ih]

theorem assertString_of_noRaw (md : GoMap GoAny) (h : NoRawQuery md) :
    ¬ ((assertString (md.lookup "query")).2 = true ∧ (assertString (md.lookup "query")).1 ≠ "") := by
  rcases h with h | ⟨v, hv, hs⟩ | h
  · simp [h, assertString]
  · rw [hv]
    cases v <;> simp [assertString]
    exact absurd rfl (hs _)
  · simp [h, assertString]

theorem noRaw_or_hasRaw (md : GoMap GoAny) : NoRawQuery md ∨ ∃ raw, HasRawQuery md raw := by
  unfold NoRawQuery HasRawQuery
  cases h : md.lookup "query" with
  | none => simp
  | some v =>
    cases v with
    | str s =>
      by_cases hs : s = ""
      · subst hs; simp
      · right; exact ⟨s, rfl, hs⟩
    | _ => left; right; left; simp

theorem noRaw_not_hasRaw (md : GoMap GoAny) (h : NoRawQuery md) (raw : String) :
    ¬ HasRawQuery md raw := by
  rintro ⟨h1, h2⟩
  rcases h with h | ⟨v, hv, hs⟩ | h
  · simp [h] at h1
  · rw [hv] at h1
    exact hs raw (Option.some.inj h1)
  · rw [h] at h1
    simp at h1
    exact h2 h1.symm

open MetricPkg

/-- With a raw query in the metadata, `buildPromQL` returns it. -/
theorem buildPromQL_of_hasRaw (wide : Nat → Bool) (q : MetricQuery) (raw : String)
    (h : HasRawQuery q.Metadata raw) : buildPromQL wide q = Except.ok raw := by
  obtain ⟨h1, h2⟩ := h
  simp [buildPromQL, h1, assertString, h2]

/-- Without a raw query, `buildPromQL` builds the expression from the
structured expression, when there is one. -/
theorem buildPromQL_of_noRaw (wide : Nat → Bool) (q : MetricQuery) (e : MetricExpression)
    (h : NoRawQuery q.Metadata) (he : q.Expression = some e) :
    buildPromQL wide q = Except.ok
      (if e.Aggregation ≠ "" then
        (if e.GroupBy.length > 0 then
          e.Aggregation ++ "(" ++ (e.MetricName ++ braceClause (collectFilters wide e q.Scope))
            ++ ")" ++ " by (" ++ ",".intercalate e.GroupBy ++ ")"
        else
          e.Aggregation ++ "(" ++ (e.MetricName ++ braceClause (collectFilters wide e q.Scope))
            ++ ")")
      else e.MetricName ++ braceClause (collectFilters wide e q.Scope)) := by
  have hn := assertString_of_noRaw q.Metadata h
  unfold buildPromQL
  simp only [he]
  rw [if_neg hn]
  simp only [appendJoined_zero, braceClause]
  by_cases hf : collectFilters wide e q.Scope = []
  · simp [hf]
  · have : (collectFilters wide e q.Scope).length > 0 := List.length_pos.mpr hf
    simp [hf, this, String.append_assoc]

theorem buildPromQL_none_of_noRaw (wide : Nat → Bool) (q : MetricQuery)
    (h : NoRawQuery q.Metadata) (he : q.Expression = none) :
    buildPromQL wide q = Except.error "missing query expression" := by
  have hn := assertString_of_noRaw q.Metadata h
  unfold buildPromQL
  simp only [he]
  rw [if_neg hn]

theorem foldl_escaped_plain (wide : Nat → Bool) (cs : List Char) (acc : String)
    (h : ∀ c ∈ cs, IsPrint wide c = true ∧ c ≠ '"' ∧ c ≠ '\\') :
    cs.foldl (appendEscapedRune wide) acc = acc ++ String.mk cs := by
  induction cs generalizing acc with
  | nil => exact String.ext (by simp)
  | cons c rest ih =>
    obtain ⟨hp, hq, hb⟩ := h c (List.mem_cons_self _ _)
    rw [List.foldl_cons, ih _ (fun d hd => h d (List.mem_cons_of_mem _ hd))]
    simp only [appendEscapedRune, hq, hb, hp, or_self, if_false, if_true]
    exact String.ext (by simp)

/-- On a plain value `%q` only adds the two double quotes. -/
theorem quote_plain (wide : Nat → Bool) (v : String) (h : PlainValue wide v) :
    quote wide v = "\"" ++ v ++ "\"" := by
  unfold quote
  rw [foldl_escaped_plain wide _ _ h]
  exact String.ext (by simp)

/-- The slice `filters`: the structured filters in order, then the scope items. -/
theorem collectFilters_eq (wide : Nat → Bool) (e : MetricExpression) (sc : QueryScope) :
    collectFilters wide e sc
      = e.Filters.map (renderFilter wide)
        ++ (if sc.Service ≠ "" then ["service=" ++ quote wide sc.Service] else [])
        ++ (if sc.Team ≠ "" then ["team=" ++ quote wide sc.Team] else [])
        ++ (if sc.Environment ≠ "" then ["env=" ++ quote wide sc.Environment] else []) := by
  unfold collectFilters
  simp only [foldl_snoc_map, List.nil_append]
  by_cases h1 : sc.Service = "" <;> by_cases h2 : sc.Team = "" <;>
    by_cases h3 : sc.Environment = "" <;> simp [h1, h2, h3]

/-! ## Claims on `buildPromQL` -/

/-- C1: whenever the metadata bag holds a non-empty string under the key
`query`, `buildPromQL` succeeds with exactly that string, for every structured
expression (present or absent), scope, time range, step and printability table. -/
theorem C1_raw_override_wins (wide : Nat → Bool) (expr : Option MetricExpression)
    (scope : QueryScope) (start stop : Time) (step : Int) (md : GoMap GoAny) (raw : String)
    (h : HasRawQuery md raw) :
    buildPromQL wide ⟨expr, scope, start, stop, step, md⟩ = Except.ok raw :=
  buildPromQL_of_hasRaw wide _ raw h

/-- Witness of C1: the raw override of the repository's test, with a structured
expression that is ignored. -/
theorem C1_raw_override_wins_witness :
    HasRawQuery [("query", GoAny.str "up\x7bjob=\"prometheus\"\x7d")] "up\x7bjob=\"prometheus\"\x7d" ∧
    buildPromQL (fun _ => true)
      ⟨some ⟨"ignored", [], "", []⟩, ⟨"", "", ""⟩, ⟨0⟩, ⟨0⟩, 60,
        [("query", GoAny.str "up\x7bjob=\"prometheus\"\x7d")]⟩
      = Except.ok "up\x7bjob=\"prometheus\"\x7d" :=
  ⟨by decide, C1_raw_override_wins _ _ _ _ _ _ _ _ (by decide)⟩

/-- C2: `buildPromQL` fails with the missing-expression error exactly when the
query has no structured expression and no non-empty string under the metadata
key `query` (key absent, value not a string, or empty string); every other
query succeeds. -/
theorem C2_missing_expression_iff (wide : Nat → Bool) (q : MetricQuery) :
    (buildPromQL wide q = Except.error "missing query expression"
      ↔ q.Expression = none ∧ NoRawQuery q.Metadata) ∧
    (¬ (q.Expression = none ∧ NoRawQuery q.Metadata) → ∃ s, buildPromQL wide q = Except.ok s) ∧
    (∀ msg, buildPromQL wide q = Except.error msg → msg = "missing query expression") := by
  rcases noRaw_or_hasRaw q.Metadata with hn | ⟨raw, hr⟩
  · cases he : q.Expression with
    | none =>
      have hb := buildPromQL_none_of_noRaw wide q hn he
      refine ⟨⟨fun _ => ⟨rfl, hn⟩, fun _ => hb⟩, fun hc => absurd ⟨rfl, hn⟩ hc, ?_⟩
      intro msg hm
      rw [hb] at hm
      exact (Except.error.inj hm).symm
    | some e =>
      have hb := buildPromQL_of_noRaw wide q e hn he
      refine ⟨⟨fun hc => ?_, fun hc => ?_⟩, fun _ => ⟨_, hb⟩, ?_⟩
      · rw [hb] at hc; cases hc
      · exact absurd hc.1 (by simp)
      · intro msg hm
        rw [hb] at hm; cases hm
  · have hb := buildPromQL_of_hasRaw wide q raw hr
    refine ⟨⟨fun hc => ?_, fun hc => ?_⟩, fun _ => ⟨_, hb⟩, ?_⟩
    · rw [hb] at hc; cases hc
    · exact absurd hr (noRaw_not_hasRaw _ hc.2 raw)
    · intro msg hm
      rw [hb] at hm; cases hm

/-- Witness of C2: no structured expression and a number under the key `query`
give the missing-expression error. -/
theorem C2_missing_expression_iff_witness :
    buildPromQL (fun _ => true) ⟨none, ⟨"", "", ""⟩, ⟨0⟩, ⟨0⟩, 60, [("query", GoAny.num 123)]⟩
      = Except.error "missing query expression" :=
  (C2_missing_expression_iff (fun _ => true)
    ⟨none, ⟨"", "", ""⟩, ⟨0⟩, ⟨0⟩, 60, [("query", GoAny.num 123)]⟩).1.mpr
    ⟨rfl, Or.inr (Or.inl ⟨GoAny.num 123, rfl, fun _ h => GoAny.noConfusion h⟩)⟩

/-- C3, as stated, fails: a filter value holding a double quote is not rendered
unchanged, `%q` writes a backslash before the quote. -/
theorem C3_counterexample :
    buildPromQL (fun _ => true)
      ⟨some ⟨"http_requests_total", [⟨"agent", "=", "say \"hi\""⟩], "", []⟩,
        ⟨"", "", ""⟩, ⟨0⟩, ⟨0⟩, 60, []⟩
      = Except.ok "http_requests_total\x7bagent=\"say \\\"hi\\\"\"\x7d" ∧
    buildPromQL (fun _ => true)
      ⟨some ⟨"http_requests_total", [⟨"agent", "=", "say \"hi\""⟩], "", []⟩,
        ⟨"", "", ""⟩, ⟨0⟩, ⟨0⟩, 60, []⟩
      ≠ Except.ok ("http_requests_total" ++ "\x7b"
          ++ ",".intercalate ([⟨"agent", "=", "say \"hi\""⟩].map verbatimFilter) ++ "\x7d") := by
  decide

/-- C3, amended: with a non-empty filter list, empty scope, no aggregation and
no raw override, `buildPromQL` returns the metric name, an opening brace, the
filters rendered as label, operator and the `%q` quoting of the value, joined
by commas, and a closing brace; the quoting is the value unchanged between two
double quotes for every plain value (all characters printable, none a double
quote or a backslash), so the result is the verbatim rendering when all values
are plain; a double quote or a backslash of the value is written with a
backslash before it. -/
theorem C3_filter_clause_quoted (wide : Nat → Bool) (m : String) (filters : List MetricFilter)
    (groupBy : List String) (start stop : Time) (step : Int) (md : GoMap GoAny)
    (hne : filters ≠ []) (hmd : NoRawQuery md) :
    buildPromQL wide ⟨some ⟨m, filters, "", groupBy⟩, ⟨"", "", ""⟩, start, stop, step, md⟩
      = Except.ok (m ++ "\x7b"
          ++ ",".intercalate (filters.map (fun f => f.Label ++ f.Operator ++ quote wide f.Value))
          ++ "\x7d") ∧
    (∀ v, PlainValue wide v → quote wide v = "\"" ++ v ++ "\"") ∧
    (∀ buf, appendEscapedRune wide buf '"' = buf ++ "\\\"" ∧
      appendEscapedRune wide buf '\\' = buf ++ "\\\\") ∧
    ((∀ f ∈ filters, PlainValue wide f.Value) →
      buildPromQL wide ⟨some ⟨m, filters, "", groupBy⟩, ⟨"", "", ""⟩, start, stop, step, md⟩
        = Except.ok (m ++ "\x7b" ++ ",".intercalate (filters.map verbatimFilter) ++ "\x7d")) := by
  have hb := buildPromQL_of_noRaw wide
    ⟨some ⟨m, filters, "", groupBy⟩, ⟨"", "", ""⟩, start, stop, step, md⟩ ⟨m, filters, "", groupBy⟩ hmd rfl
  have hc : collectFilters wide ⟨m, filters, "", groupBy⟩ ⟨"", "", ""⟩
      = filters.map (renderFilter wide) := by
    rw [collectFilters_eq]; simp
  have hmain : buildPromQL wide ⟨some ⟨m, filters, "", groupBy⟩, ⟨"", "", ""⟩, start, stop, step, md⟩
      = Except.ok (m ++ "\x7b"
          ++ ",".intercalate (filters.map (fun f => f.Label ++ f.Operator ++ quote wide f.Value))
          ++ "\x7d") := by
    rw [hb, hc]
    have hne2 : List.map (renderFilter wide) filters ≠ [] := by simpa using hne
    have hr : renderFilter wide = fun f => f.Label ++ f.Operator ++ quote wide f.Value := rfl
    simp only [ne_eq, not_true_eq_false, if_false, braceClause, hne2]
    rw [hr]
    simp only [String.append_assoc]
  refine ⟨hmain, quote_plain wide, fun buf => ⟨?_, ?_⟩, fun hp => ?_⟩
  · exact String.ext (by simp [appendEscapedRune])
  · exact String.ext (by simp [appendEscapedRune])
  rw [hmain]
  have : filters.map (fun f => f.Label ++ f.Operator ++ quote wide f.Value)
      = filters.map verbatimFilter := by
    apply List.map_congr_left
    intro f hf
    simp only [verbatimFilter, quote_plain wide _ (hp f hf), String.append_assoc]
  rw [this]

/-- Witness of C3: the filter `method="POST"` of the repository's test. -/
theorem C3_filter_clause_quoted_witness :
    ([⟨"method", "=", "POST"⟩] : List MetricFilter) ≠ [] ∧ NoRawQuery [] ∧
    buildPromQL (fun _ => true)
      ⟨some ⟨"http_requests_total", [⟨"method", "=", "POST"⟩], "", []⟩,
        ⟨"", "", ""⟩, ⟨0⟩, ⟨0⟩, 60, []⟩
      = Except.ok "http_requests_total\x7bmethod=\"POST\"\x7d" :=
  ⟨by decide, Or.inl (by decide),
    ((C3_filter_clause_quoted (fun _ => true) "http_requests_total" [⟨"method", "=", "POST"⟩]
      [] ⟨0⟩ ⟨0⟩ 60 [] (by decide) (Or.inl (by decide))).2.2.2 (by decide)).trans (by decide)⟩

/-- C4: for a structured query with no raw override and no aggregation, the
items of the brace clause are the structured filters in their order, each
written as label, operator and the `%q` quoting of the value, then a service
item, a team item and an env item in that order, each present exactly when its
scope field is non-empty; the items are joined by single commas between the
braces, with no comma before the first or after the last; with no item at all
the result is the metric name alone. -/
theorem C4_brace_clause_items (wide : Nat → Bool) (m : String) (filters : List MetricFilter)
    (groupBy : List String) (sc : QueryScope) (start stop : Time) (step : Int)
    (md : GoMap GoAny) (hmd : NoRawQuery md) :
    buildPromQL wide ⟨some ⟨m, filters, "", groupBy⟩, sc, start, stop, step, md⟩
      = Except.ok
        (if filters.map (fun f => f.Label ++ f.Operator ++ quote wide f.Value)
            ++ (if sc.Service ≠ "" then ["service=" ++ quote wide sc.Service] else [])
            ++ (if sc.Team ≠ "" then ["team=" ++ quote wide sc.Team] else [])
            ++ (if sc.Environment ≠ "" then ["env=" ++ quote wide sc.Environment] else []) = []
         then m
         else m ++ "\x7b" ++ ",".intercalate
           (filters.map (fun f => f.Label ++ f.Operator ++ quote wide f.Value)
            ++ (if sc.Service ≠ "" then ["service=" ++ quote wide sc.Service] else [])
            ++ (if sc.Team ≠ "" then ["team=" ++ quote wide sc.Team] else [])
            ++ (if sc.Environment ≠ "" then ["env=" ++ quote wide sc.Environment] else []))
           ++ "\x7d") ∧
    (filters = [] → sc.Service = "" → sc.Team = "" → sc.Environment = "" →
      buildPromQL wide ⟨some ⟨m, filters, "", groupBy⟩, sc, start, stop, step, md⟩
        = Except.ok m) := by
  have hb := buildPromQL_of_noRaw wide
    ⟨some ⟨m, filters, "", groupBy⟩, sc, start, stop, step, md⟩ ⟨m, filters, "", groupBy⟩ hmd rfl
  have hmain : buildPromQL wide ⟨some ⟨m, filters, "", groupBy⟩, sc, start, stop, step, md⟩
      = Except.ok (m ++ braceClause (collectFilters wide ⟨m, filters, "", groupBy⟩ sc)) := by
    rw [hb]; simp
  have hr : renderFilter wide = fun f => f.Label ++ f.Operator ++ quote wide f.Value := rfl
  rw [hmain, collectFilters_eq, hr]
  refine ⟨?_, fun h1 h2 h3 h4 => ?_⟩
  · rw [append_braceClause]
  · simp [h1, h2, h3, h4, braceClause]

/-- Witness of C4: two structured filters followed by the three scope items,
and the scoped query of the repository's test, service before environment and
no team item. -/
theorem C4_brace_clause_items_witness :
    NoRawQuery [] ∧
    buildPromQL (fun _ => true)
      ⟨some ⟨"http_requests_total", [⟨"method", "=", "POST"⟩, ⟨"status", "!=", "500"⟩], "", []⟩,
        ⟨"api", "core", "prod"⟩, ⟨0⟩, ⟨0⟩, 60, []⟩
      = Except.ok ("http_requests_total\x7bmethod=\"POST\",status!=\"500\","
          ++ "service=\"api\",team=\"core\",env=\"prod\"\x7d") ∧
    buildPromQL (fun _ => true)
      ⟨some ⟨"http_requests_total", [], "", []⟩, ⟨"api", "", "prod"⟩, ⟨0⟩, ⟨0⟩, 60, []⟩
      = Except.ok "http_requests_total\x7bservice=\"api\",env=\"prod\"\x7d" ∧
    buildPromQL (fun _ => true)
      ⟨some ⟨"http_requests_total", [], "", []⟩, ⟨"", "", ""⟩, ⟨0⟩, ⟨0⟩, 60, []⟩
      = Except.ok "http_requests_total" :=
  ⟨Or.inl (by decide),
    (C4_brace_clause_items (fun _ => true) "http_requests_total"
      [⟨"method", "=", "POST"⟩, ⟨"status", "!=", "500"⟩] [] ⟨"api", "core", "prod"⟩
      ⟨0⟩ ⟨0⟩ 60 [] (Or.inl (by decide))).1.trans (by decide),
    (C4_brace_clause_items (fun _ => true) "http_requests_total" [] [] ⟨"api", "", "prod"⟩
      ⟨0⟩ ⟨0⟩ 60 [] (Or.inl (by decide))).1.trans (by decide),
    (C4_brace_clause_items (fun _ => true) "http_requests_total" [] [] ⟨"", "", ""⟩
      ⟨0⟩ ⟨0⟩ 60 [] (Or.inl (by decide))).2 rfl rfl rfl rfl⟩

/-- C5: for a structured query with a non-empty aggregation name `fn` and no raw
override, let `e` be the result for the same query with aggregation and
group-by cleared; the result is `fn(e)` when the group-by list is empty and
`fn(e) by (g1,g2,...)`, labels in their order joined by commas, otherwise. -/
theorem C5_aggregation_wraps (wide : Nat → Bool) (m : String) (filters : List MetricFilter)
    (fn : String) (groupBy : List String) (sc : QueryScope) (start stop : Time) (step : Int)
    (md : GoMap GoAny) (hmd : NoRawQuery md) (hfn : fn ≠ "") :
    ∃ e, buildPromQL wide ⟨some ⟨m, filters, "", []⟩, sc, start, stop, step, md⟩ = Except.ok e ∧
      buildPromQL wide ⟨some ⟨m, filters, fn, groupBy⟩, sc, start, stop, step, md⟩
        = Except.ok
          (if groupBy = [] then fn ++ "(" ++ e ++ ")"
           else fn ++ "(" ++ e ++ ") by (" ++ ",".intercalate groupBy ++ ")") := by
  have h0 := buildPromQL_of_noRaw wide
    ⟨some ⟨m, filters, "", []⟩, sc, start, stop, step, md⟩ ⟨m, filters, "", []⟩ hmd rfl
  have h1 := buildPromQL_of_noRaw wide
    ⟨some ⟨m, filters, fn, groupBy⟩, sc, start, stop, step, md⟩ ⟨m, filters, fn, groupBy⟩ hmd rfl
  have hc : collectFilters wide ⟨m, filters, fn, groupBy⟩ sc
      = collectFilters wide ⟨m, filters, "", []⟩ sc := rfl
  refine ⟨m ++ braceClause (collectFilters wide ⟨m, filters, "", []⟩ sc), ?_, ?_⟩
  · rw [h0]; simp
  · rw [h1, hc]
    cases groupBy with
    | nil => simp [hfn]
    | cons g rest => simp [hfn, String.append_assoc]

/-- Witness of C5: aggregation `sum` with group-by `[method, status]` on
`http_requests_total`, as in the repository's test. -/
theorem C5_aggregation_wraps_witness :
    NoRawQuery [] ∧ "sum" ≠ "" ∧
    buildPromQL (fun _ => true)
      ⟨some ⟨"http_requests_total", [], "sum", ["method", "status"]⟩, ⟨"", "", ""⟩,
        ⟨0⟩, ⟨0⟩, 60, []⟩
      = Except.ok "sum(http_requests_total) by (method,status)" := by
  refine ⟨Or.inl (by decide), by decide, ?_⟩
  obtain ⟨e, he, hq⟩ := C5_aggregation_wraps (fun _ => true) "http_requests_total" [] "sum"
    ["method", "status"] ⟨"", "", ""⟩ ⟨0⟩ ⟨0⟩ 60 [] (Or.inl (by decide)) (by decide)
  have hv : e = "http_requests_total" := (Except.ok.inj he).symm
  rw [hq, hv]
  decide

/-- C6, as stated, fails: with a group-by list but no aggregation name the
result is the bare expression, without a `by` clause. -/
theorem C6_counterexample :
    buildPromQL (fun _ => true)
      ⟨some ⟨"http_requests_total", [], "", ["method"]⟩, ⟨"", "", ""⟩, ⟨0⟩, ⟨0⟩, 60, []⟩
      = Except.ok "http_requests_total" ∧
    ¬ EndsWith "http_requests_total" (" by (" ++ ",".intercalate ["method"] ++ ")") := by
  decide

/-- C6, amended: for a structured query with no raw override and a non-empty
group-by list, the expression ends with ` by (g1,g2,...)` when the aggregation
name is non-empty; when the aggregation name is empty the group-by list is not
used and the result is that of the same query with an empty group-by list. -/
theorem C6_by_clause_with_aggregation (wide : Nat → Bool) (m : String)
    (filters : List MetricFilter) (fn : String) (groupBy : List String) (sc : QueryScope)
    (start stop : Time) (step : Int) (md : GoMap GoAny)
    (hmd : NoRawQuery md) (hg : groupBy ≠ []) :
    (fn ≠ "" → ∃ s,
      buildPromQL wide ⟨some ⟨m, filters, fn, groupBy⟩, sc, start, stop, step, md⟩ = Except.ok s ∧
      EndsWith s (" by (" ++ ",".intercalate groupBy ++ ")")) ∧
    (fn = "" →
      buildPromQL wide ⟨some ⟨m, filters, fn, groupBy⟩, sc, start, stop, step, md⟩
        = buildPromQL wide ⟨some ⟨m, filters, "", []⟩, sc, start, stop, step, md⟩) := by
  have h1 := buildPromQL_of_noRaw wide
    ⟨some ⟨m, filters, fn, groupBy⟩, sc, start, stop, step, md⟩ ⟨m, filters, fn, groupBy⟩ hmd rfl
  constructor
  · intro hfn
    have hl : groupBy.length > 0 := List.length_pos.mpr hg
    refine ⟨_, h1, ?_⟩
    simp only [hfn, hl, ne_eq, not_false_eq_true, if_true]
    refine ⟨(fn ++ "(" ++ (m ++ braceClause (collectFilters wide ⟨m, filters, fn, groupBy⟩ sc))
      ++ ")").toList, ?_⟩
    simp [String.toList, String.append_assoc]
  · intro hfn
    subst hfn
    have h0 := buildPromQL_of_noRaw wide
      ⟨some ⟨m, filters, "", []⟩, sc, start, stop, step, md⟩ ⟨m, filters, "", []⟩ hmd rfl
    rw [h1, h0]
    simp
    rfl

/-- Witness of C6: `sum` grouped by `method` ends with the `by` clause. -/
theorem C6_by_clause_with_aggregation_witness :
    NoRawQuery [] ∧ ["method"] ≠ [] ∧ "sum" ≠ "" ∧ ∃ s,
      buildPromQL (fun _ => true)
        ⟨some ⟨"up", [], "sum", ["method"]⟩, ⟨"", "", ""⟩, ⟨0⟩, ⟨0⟩, 60, []⟩ = Except.ok s ∧
      EndsWith s (" by (" ++ ",".intercalate ["method"] ++ ")") :=
  ⟨Or.inl (by decide), by decide, by decide,
    (C6_by_clause_with_aggregation (fun _ => true) "up" [] "sum" ["method"] ⟨"", "", ""⟩
      ⟨0⟩ ⟨0⟩ 60 [] (Or.inl (by decide)) (by decide)).1 (by decide)⟩

/-! ## Lemmas on the alert translator -/

open AlertPkg

theorem foldl_snoc_eq_map {α β : Type} (g : α → β) (init : List β) (l : List α) :
    l.foldl (fun acc x => acc ++ [g x]) init = init ++ l.map g := by
  induction l generalizing init with
  | nil => simp
  | cons x rest ih => simp [ih]

/-- A loop over a slice guarded by `len(slice) > 0` is the loop itself. -/
theorem guarded_foldl {α β : Type} (f : β → α → β) (init : β) (l : List α) :
    (if l.length > 0 then l.foldl f init else init) = l.foldl f init := by
  cases l <;> simp

theorem add_filterParams (items : List String) (v : String) :
    Values.Add (filterParams items) "filter" v = filterParams (items ++ [v]) := by
  unfold filterParams
  by_cases h : items = []
  · simp [h, Values.Add]
  · simp [h, Values.Add]

theorem foldl_add_filterParams {α : Type} (g : α → String) (l : List α) (items : List String) :
    l.foldl (fun ps x => Values.Add ps "filter" (g x)) (filterParams items)
      = filterParams (items ++ l.map g) := by
  induction l generalizing items with
  | nil => simp
  | cons x rest ih => simp [add_filterParams, ih]

/-- The fields of a converted alert that do not depend on the timestamps. -/
theorem convert_fields (parseTime : String → Option Time) (am : alertmanagerAlert) :
    (convertAlertmanagerAlert parseTime am).ID = am.Fingerprint ∧
    (convertAlertmanagerAlert parseTime am).Title = indexStr am.Labels "alertname" ∧
    (convertAlertmanagerAlert parseTime am).Description
      = indexStr am.Annotations "description" ∧
    (convertAlertmanagerAlert parseTime am).Status = mapAlertmanagerStateToStatus am.State ∧
    (convertAlertmanagerAlert parseTime am).Severity = indexStr am.Labels "severity" ∧
    (convertAlertmanagerAlert parseTime am).Service = indexStr am.Labels "service" ∧
    (convertAlertmanagerAlert parseTime am).URL = "/alerting/alerts#" ++ am.Fingerprint ∧
    (convertAlertmanagerAlert parseTime am).Fields
      = [("labels", GoAny.strMap am.Labels), ("annotations", GoAny.strMap am.Annotations)] ∧
    (convertAlertmanagerAlert parseTime am).Metadata
      = [("source", GoAny.str "prometheus"), ("fingerprint", GoAny.str am.Fingerprint)] := by
  unfold convertAlertmanagerAlert
  cases parseTime am.StartsAt <;> cases parseTime am.UpdatedAt <;> simp

theorem scan_no_match (parseTime : String → Option Time) (id : String)
    (ams : List alertmanagerAlert) (h : ∀ a ∈ ams, a.Fingerprint ≠ id) :
    scanForFingerprint parseTime id ams = Except.error ("alert not found: " ++ id) := by
  induction ams with
  | nil => rfl
  | cons a rest ih =>
    have ha : a.Fingerprint ≠ id := h a (List.mem_cons_self _ _)
    simp only [scanForFingerprint, ha, if_false]
    exact ih (fun b hb => h b (List.mem_cons_of_mem _ hb))

theorem scan_first_match (parseTime : String → Option Time) (id : String)
    (pre post : List alertmanagerAlert) (a : alertmanagerAlert)
    (hpre : ∀ b ∈ pre, b.Fingerprint ≠ id) (ha : a.Fingerprint = id) :
    scanForFingerprint parseTime id (pre ++ a :: post)
      = Except.ok (convertAlertmanagerAlert parseTime a) := by
  induction pre with
  | nil => simp [scanForFingerprint, ha]
  | cons b rest ih =>
    have hb : b.Fingerprint ≠ id := hpre b (List.mem_cons_self _ _)
    simp only [List.cons_append, scanForFingerprint, hb, if_false]
    exact ih (fun c hc => hpre c (List.mem_cons_of_mem _ hc))

theorem scan_error_no_match (parseTime : String → Option Time) (id : String)
    (ams : List alertmanagerAlert) (msg : String)
    (h : scanForFingerprint parseTime id ams = Except.error msg) :
    ∀ a ∈ ams, a.Fingerprint ≠ id := by
  induction ams with
  | nil => simp
  | cons a rest ih =>
    by_cases ha : a.Fingerprint = id
    · simp [scanForFingerprint, ha] at h
    · simp only [scanForFingerprint, ha, if_false] at h
      intro b hb
      rcases List.mem_cons.mp hb with rfl | hb
      · exact ha
      · exact ih h b hb

theorem get_of_success (up : Upstream) (p : PrometheusAlertProvider) (id body : String)
    (ams : List alertmanagerAlert)
    (hget : up.get (p.baseURL ++ "/api/v2/alerts") = HttpResult.response 200 body)
    (hdec : up.decode body = Except.ok ams) :
    Get up p id = scanForFingerprint up.parseTime id ams := by
  simp [Get, fetchAlerts, hget, hdec, StatusOK]

/-! ## Claims on the alert translator -/

/-- C7: let `items` be, in this order, `state="<m>"` for each requested status
(`m` the mapped status), `severity="<value>"` for each requested severity, then
`service=`, `team=` and `env=` filters for the non-empty scope fields. The
parameters that `Query` builds hold exactly `items` under the key `filter` and
nothing else, `Query` sends its one request to the base URL followed by
`/api/v2/alerts?` and the encoding of these parameters, and its result is
decided by the answer to that request; the mapping sends firing, open and
active to active, resolved and closed to suppressed, and any other string to
itself. -/
theorem C7_query_filter_sequence (up : Upstream) (p : PrometheusAlertProvider)
    (q : AlertQuery) (items : List String)
    (hitems : items =
      q.Statuses.map (fun s => "state=\"" ++ mapStatusToAlertmanager s ++ "\"")
        ++ q.Severities.map (fun v => "severity=\"" ++ v ++ "\"")
        ++ (if q.Scope.Service ≠ "" then ["service=\"" ++ q.Scope.Service ++ "\""] else [])
        ++ (if q.Scope.Team ≠ "" then ["team=\"" ++ q.Scope.Team ++ "\""] else [])
        ++ (if q.Scope.Environment ≠ "" then ["env=\"" ++ q.Scope.Environment ++ "\""] else [])) :
    queryParams q = (if items = [] then [] else [("filter", items)])
    ∧ Query up p q =
      (match up.get (p.baseURL ++ "/api/v2/alerts?"
          ++ up.encode (if items = [] then [] else [("filter", items)])) with
        | HttpResult.createError msg => Except.error ("create request: " ++ msg)
        | HttpResult.doError msg => Except.error ("execute request: " ++ msg)
        | HttpResult.response statusCode body =>
          if statusCode ≠ 200 then
            Except.error ("alertmanager API error: " ++ toString statusCode ++ " " ++ body)
          else
            match up.decode body with
            | Except.error msg => Except.error ("decode response: " ++ msg)
            | Except.ok ams =>
              Except.ok
                (if q.Limit > 0 ∧ q.Limit < (ams.length : Int) then
                  (ams.map (convertAlertmanagerAlert up.parseTime)).take q.Limit.toNat
                else ams.map (convertAlertmanagerAlert up.parseTime)))
    ∧ (∀ s, s ∈ ["firing", "open", "active"] → mapStatusToAlertmanager s = "active")
    ∧ (∀ s, s ∈ ["resolved", "closed"] → mapStatusToAlertmanager s = "suppressed")
    ∧ (∀ s, s ∉ ["firing", "open", "active", "resolved", "closed"] →
        mapStatusToAlertmanager s = s) := by
  have hq : queryParams q = (if items = [] then [] else [("filter", items)]) := by
    subst hitems
    have h0 : ([] : Values) = filterParams [] := rfl
    have hf : ∀ l : List String, (if l = [] then [] else [("filter", l)]) = filterParams l :=
      fun _ => rfl
    rw [hf]
    unfold queryParams
    simp only [guarded_foldl]
    simp only [h0, foldl_add_filterParams, List.nil_append]
    by_cases h1 : q.Scope.Service = "" <;> by_cases h2 : q.Scope.Team = "" <;>
      by_cases h3 : q.Scope.Environment = "" <;>
      simp [h1, h2, h3, add_filterParams]
  refine ⟨hq, ?_, ?_, ?_, ?_⟩
  · unfold Query fetchAlerts
    simp only [hq]
    cases up.get (p.baseURL ++ "/api/v2/alerts?"
        ++ up.encode (if items = [] then [] else [("filter", items)])) with
    | createError msg => rfl
    | doError msg => rfl
    | response statusCode body =>
      by_cases hc : statusCode = 200
      · subst hc
        cases hd : up.decode body with
        | error msg => simp [StatusOK, hd]
        | ok ams => simp [StatusOK, hd, foldl_snoc_eq_map]
      · simp [StatusOK, hc]
  · intro s hs
    simp only [List.mem_cons, List.mem_singleton, List.mem_nil_iff, or_false] at hs
    simp [mapStatusToAlertmanager, hs]
  · intro s hs
    simp only [List.mem_cons, List.mem_singleton, List.mem_nil_iff, or_false] at hs
    rcases hs with rfl | rfl <;> decide
  · intro s hs
    simp only [List.mem_cons, List.mem_singleton, List.mem_nil_iff, or_false, not_or] at hs
    simp [mapStatusToAlertmanager, hs]

/-- Witness of C7: three statuses, one severity, service and environment; the
upstream answers only the request that carries exactly these six filters, and
`Query` returns the conversions of its records. -/
theorem C7_query_filter_sequence_witness :
    queryParams ⟨["firing", "closed", "acknowledged"], ["critical"], ⟨"api", "", "prod"⟩, 0⟩
      = [("filter", ["state=\"active\"", "state=\"suppressed\"", "state=\"acknowledged\"",
          "severity=\"critical\"", "service=\"api\"", "env=\"prod\""])] ∧
    Query filterUpstream ⟨"http://am"⟩
        ⟨["firing", "closed", "acknowledged"], ["critical"], ⟨"api", "", "prod"⟩, 0⟩
      = Except.ok (sampleRecords.map (convertAlertmanagerAlert (fun _ => none))) ∧
    Query filterUpstream ⟨"http://am"⟩
        ⟨["firing", "closed", "acknowledged"], ["critical"], ⟨"api", "", ""⟩, 0⟩
      = Except.error "execute request: unexpected request" :=
  ⟨(C7_query_filter_sequence filterUpstream ⟨"http://am"⟩
      ⟨["firing", "closed", "acknowledged"], ["critical"], ⟨"api", "", "prod"⟩, 0⟩ _ rfl).1.trans
      (by decide),
   (C7_query_filter_sequence filterUpstream ⟨"http://am"⟩
      ⟨["firing", "closed", "acknowledged"], ["critical"], ⟨"api", "", "prod"⟩, 0⟩ _ rfl).2.1.trans
      (by decide),
   (C7_query_filter_sequence filterUpstream ⟨"http://am"⟩
      ⟨["firing", "closed", "acknowledged"], ["critical"], ⟨"api", "", ""⟩, 0⟩ _ rfl).2.1.trans
      (by decide)⟩

/-- C8: the status of a converted alert is firing for the upstream state
active, suppressed for suppressed, pending for unprocessed, and the upstream
state itself for every other state. -/
theorem C8_converted_status (parseTime : String → Option Time) (am : alertmanagerAlert) :
    (am.State = "active" → (convertAlertmanagerAlert parseTime am).Status = "firing") ∧
    (am.State = "suppressed" → (convertAlertmanagerAlert parseTime am).Status = "suppressed") ∧
    (am.State = "unprocessed" → (convertAlertmanagerAlert parseTime am).Status = "pending") ∧
    (am.State ∉ ["active", "suppressed", "unprocessed"] →
      (convertAlertmanagerAlert parseTime am).Status = am.State) := by
  rw [(convert_fields parseTime am).2.2.2.1]
  refine ⟨?_, ?_, ?_, ?_⟩
  · intro h; rw [h]; decide
  · intro h; rw [h]; decide
  · intro h; rw [h]; decide
  · intro h
    simp only [List.mem_cons, List.mem_singleton, List.mem_nil_iff, or_false, not_or] at h
    simp [mapAlertmanagerStateToStatus, h]

/-- Witness of C8: the active record of the repository's test converts to a
firing alert. -/
theorem C8_converted_status_witness :
    (convertAlertmanagerAlert (fun _ => none)
      ⟨"abc123", "active", [("alertname", "HighCPU"), ("severity", "critical"), ("service", "api")],
        [("description", "CPU usage above 90%")],
        "2025-12-03T10:00:00Z", "", "2025-12-03T10:05:00Z"⟩).Status = "firing" :=
  (C8_converted_status (fun _ => none)
    ⟨"abc123", "active", [("alertname", "HighCPU"), ("severity", "critical"), ("service", "api")],
      [("description", "CPU usage above 90%")],
      "2025-12-03T10:00:00Z", "", "2025-12-03T10:05:00Z"⟩).1 rfl

/-- C9: the converted alert has the fingerprint as identifier, the labels
alertname, severity and service as title, severity and service, the annotation
description as description (each the empty string when absent), the URL
`/alerting/alerts#` followed by the fingerprint, a field bag with exactly the
keys labels and annotations holding the two full maps, and a metadata bag with
exactly the keys source (`prometheus`) and fingerprint. -/
theorem C9_converted_fields (parseTime : String → Option Time) (am : alertmanagerAlert) :
    (convertAlertmanagerAlert parseTime am).ID = am.Fingerprint ∧
    (convertAlertmanagerAlert parseTime am).Title = (am.Labels.lookup "alertname").getD "" ∧
    (convertAlertmanagerAlert parseTime am).Description
      = (am.Annotations.lookup "description").getD "" ∧
    (convertAlertmanagerAlert parseTime am).Severity = (am.Labels.lookup "severity").getD "" ∧
    (convertAlertmanagerAlert parseTime am).Service = (am.Labels.lookup "service").getD "" ∧
    (convertAlertmanagerAlert parseTime am).URL = "/alerting/alerts#" ++ am.Fingerprint ∧
    (convertAlertmanagerAlert parseTime am).Fields
      = [("labels", GoAny.strMap am.Labels), ("annotations", GoAny.strMap am.Annotations)] ∧
    (∀ k, (convertAlertmanagerAlert parseTime am).Fields.lookup k
      = if k = "labels" then some (GoAny.strMap am.Labels)
        else if k = "annotations" then some (GoAny.strMap am.Annotations) else none) ∧
    (convertAlertmanagerAlert parseTime am).Metadata
      = [("source", GoAny.str "prometheus"), ("fingerprint", GoAny.str am.Fingerprint)] ∧
    (∀ k, (convertAlertmanagerAlert parseTime am).Metadata.lookup k
      = if k = "source" then some (GoAny.str "prometheus")
        else if k = "fingerprint" then some (GoAny.str am.Fingerprint) else none) := by
  obtain ⟨h1, h2, h3, _, h5, h6, h7, h8, h9⟩ := convert_fields parseTime am
  refine ⟨h1, h2, h3, h5, h6, h7, h8, ?_, h9, ?_⟩
  · intro k
    rw [h8]
    by_cases hk1 : k = "labels"
    · subst hk1; rfl
    · by_cases hk2 : k = "annotations"
      · subst hk2; rfl
      · have e1 := beq_eq_false_iff_ne.mpr hk1
        have e2 := beq_eq_false_iff_ne.mpr hk2
        simp only [List.lookup, e1, e2, hk1, hk2, if_false]
  · intro k
    rw [h9]
    by_cases hk1 : k = "source"
    · subst hk1; rfl
    · by_cases hk2 : k = "fingerprint"
      · subst hk2; rfl
      · have e1 := beq_eq_false_iff_ne.mpr hk1
        have e2 := beq_eq_false_iff_ne.mpr hk2
        simp only [List.lookup, e1, e2, hk1, hk2, if_false]

/-- Witness of C9: title and description of the record of the repository's
test. -/
theorem C9_converted_fields_witness :
    (convertAlertmanagerAlert (fun _ => none)
      ⟨"abc123", "active", [("alertname", "HighCPU"), ("severity", "critical"), ("service", "api")],
        [("description", "CPU usage above 90%")],
        "2025-12-03T10:00:00Z", "", "2025-12-03T10:05:00Z"⟩).Title = "HighCPU" ∧
    (convertAlertmanagerAlert (fun _ => none)
      ⟨"abc123", "active", [("alertname", "HighCPU"), ("severity", "critical"), ("service", "api")],
        [("description", "CPU usage above 90%")],
        "2025-12-03T10:00:00Z", "", "2025-12-03T10:05:00Z"⟩).Description
      = "CPU usage above 90%" :=
  ⟨(C9_converted_fields (fun _ => none)
      ⟨"abc123", "active", [("alertname", "HighCPU"), ("severity", "critical"), ("service", "api")],
        [("description", "CPU usage above 90%")],
        "2025-12-03T10:00:00Z", "", "2025-12-03T10:05:00Z"⟩).2.1.trans (by decide),
   (C9_converted_fields (fun _ => none)
      ⟨"abc123", "active", [("alertname", "HighCPU"), ("severity", "critical"), ("service", "api")],
        [("description", "CPU usage above 90%")],
        "2025-12-03T10:00:00Z", "", "2025-12-03T10:05:00Z"⟩).2.2.1.trans (by decide)⟩

/-- C10: when the upstream answers with status 200 and a decodable list, `Get`
fails exactly when no record has the fingerprint `id`, and then with the
alert-not-found error; otherwise it returns the conversion of the first record
whose fingerprint is `id`, whose identifier is `id`, whatever records come
before or after it. -/
theorem C10_get_first_match (up : Upstream) (p : PrometheusAlertProvider) (id body : String)
    (ams : List alertmanagerAlert)
    (hget : up.get (p.baseURL ++ "/api/v2/alerts") = HttpResult.response 200 body)
    (hdec : up.decode body = Except.ok ams) :
    ((∃ msg, Get up p id = Except.error msg) ↔ ∀ a ∈ ams, a.Fingerprint ≠ id) ∧
    (Get up p id = Except.error ("alert not found: " ++ id) ↔ ∀ a ∈ ams, a.Fingerprint ≠ id) ∧
    (∀ pre a post, ams = pre ++ a :: post → (∀ b ∈ pre, b.Fingerprint ≠ id) →
      a.Fingerprint = id →
      Get up p id = Except.ok (convertAlertmanagerAlert up.parseTime a) ∧
      (convertAlertmanagerAlert up.parseTime a).ID = id) := by
  rw [get_of_success up p id body ams hget hdec]
  refine ⟨⟨?_, ?_⟩, ⟨?_, ?_⟩, ?_⟩
  · rintro ⟨msg, hm⟩
    exact scan_error_no_match _ _ _ msg hm
  · intro h
    exact ⟨_, scan_no_match _ _ _ h⟩
  · intro hm
    exact scan_error_no_match _ _ _ _ hm
  · intro h
    exact scan_no_match _ _ _ h
  · intro pre a post hams hpre ha
    subst hams
    exact ⟨scan_first_match _ _ _ _ _ hpre ha, (convert_fields _ a).1.trans ha⟩

/-- Witness of C10: the record `target123` is found between two records with
other fingerprints, and the returned alert carries its identifier and title. -/
theorem C10_get_first_match_witness :
    sampleUpstream.get ("http://am" ++ "/api/v2/alerts") = HttpResult.response 200 "body" ∧
    sampleUpstream.decode "body" = Except.ok sampleRecords ∧
    (Get sampleUpstream ⟨"http://am"⟩ "target123"
        = Except.ok (convertAlertmanagerAlert sampleUpstream.parseTime
            ⟨"target123", "active", [("alertname", "TargetAlert"), ("severity", "warning")],
              [("description", "Target alert description")],
              "2025-12-03T10:00:00Z", "", "2025-12-03T10:05:00Z"⟩) ∧
      (convertAlertmanagerAlert sampleUpstream.parseTime
            ⟨"target123", "active", [("alertname", "TargetAlert"), ("severity", "warning")],
              [("description", "Target alert description")],
              "2025-12-03T10:00:00Z", "", "2025-12-03T10:05:00Z"⟩).ID = "target123") :=
  ⟨rfl, rfl,
    (C10_get_first_match sampleUpstream ⟨"http://am"⟩ "target123" "body" sampleRecords rfl rfl).2.2
      [⟨"other456", "active", [("alertname", "OtherAlert")], [],
        "2025-12-03T11:00:00Z", "", "2025-12-03T11:05:00Z"⟩]
      _ [⟨"last789", "suppressed", [], [], "", "", ""⟩] rfl (by decide) rfl⟩

/-! ## Lemmas on `Query` and the timestamps -/

/-- With a 200 response and a decoded list, `Query` converts every record and
cuts the list at the limit when the limit is positive and below the length. -/
theorem query_of_success (up : Upstream) (p : PrometheusAlertProvider) (q : AlertQuery)
    (body : String) (ams : List alertmanagerAlert)
    (hget : up.get (p.baseURL ++ "/api/v2/alerts?" ++ up.encode (queryParams q))
      = HttpResult.response 200 body)
    (hdec : up.decode body = Except.ok ams) :
    Query up p q = Except.ok
      (if q.Limit > 0 ∧ q.Limit < (ams.length : Int) then
        (ams.map (convertAlertmanagerAlert up.parseTime)).take q.Limit.toNat
      else ams.map (convertAlertmanagerAlert up.parseTime)) := by
  simp [Query, fetchAlerts, hget, hdec, StatusOK, foldl_snoc_eq_map]

theorem convert_createdAt (parseTime : String → Option Time) (am : alertmanagerAlert) :
    (convertAlertmanagerAlert parseTime am).CreatedAt
      = (parseTime am.StartsAt).getD Time.zero := by
  unfold convertAlertmanagerAlert
  cases parseTime am.StartsAt <;> cases parseTime am.UpdatedAt <;> simp

theorem convert_updatedAt (parseTime : String → Option Time) (am : alertmanagerAlert) :
    (convertAlertmanagerAlert parseTime am).UpdatedAt
      = (parseTime am.UpdatedAt).getD Time.zero := by
  unfold convertAlertmanagerAlert
  cases parseTime am.StartsAt <;> cases parseTime am.UpdatedAt <;> simp

/-! ## Claims on the limit and the timestamps -/

/-- C11: when the upstream answers with status 200 and a list of `M` records,
`Query` with a limit `N` such that `0 < N < M` returns exactly `N` alerts, the
conversions of the first `N` records in upstream order; with `N = 0` or
`N >= M` it returns `M` alerts, the conversions of all records in upstream
order; a negative limit also returns all of them. -/
theorem C11_query_limit (up : Upstream) (p : PrometheusAlertProvider) (q : AlertQuery)
    (body : String) (ams : List alertmanagerAlert)
    (hget : up.get (p.baseURL ++ "/api/v2/alerts?" ++ up.encode (queryParams q))
      = HttpResult.response 200 body)
    (hdec : up.decode body = Except.ok ams) :
    (0 < q.Limit ∧ q.Limit < (ams.length : Int) →
      Query up p q
        = Except.ok ((ams.take q.Limit.toNat).map (convertAlertmanagerAlert up.parseTime)) ∧
      (((ams.take q.Limit.toNat).map (convertAlertmanagerAlert up.parseTime)).length : Int)
        = q.Limit) ∧
    (q.Limit = 0 ∨ q.Limit ≥ (ams.length : Int) →
      Query up p q = Except.ok (ams.map (convertAlertmanagerAlert up.parseTime)) ∧
      (ams.map (convertAlertmanagerAlert up.parseTime)).length = ams.length) ∧
    (q.Limit < 0 →
      Query up p q = Except.ok (ams.map (convertAlertmanagerAlert up.parseTime))) := by
  rw [query_of_success up p q body ams hget hdec]
  refine ⟨fun h => ?_, fun h => ?_, fun h => ?_⟩
  · rw [if_pos ⟨h.1, h.2⟩, List.map_take]
    refine ⟨rfl, ?_⟩
    rw [List.length_take, List.length_map]
    omega
  · have hc : ¬ (q.Limit > 0 ∧ q.Limit < (ams.length : Int)) := by
      rcases h with h | h <;> omega
    rw [if_neg hc]
    exact ⟨rfl, List.length_map _ _⟩
  · have hc : ¬ (q.Limit > 0 ∧ q.Limit < (ams.length : Int)) := by omega
    rw [if_neg hc]

/-- Witness of C11: limit 2 on three upstream records keeps the first two. -/
theorem C11_query_limit_witness :
    sampleUpstream.get ("http://am" ++ "/api/v2/alerts?"
        ++ sampleUpstream.encode (queryParams ⟨[], [], ⟨"", "", ""⟩, 2⟩))
      = HttpResult.response 200 "body" ∧
    sampleUpstream.decode "body" = Except.ok sampleRecords ∧
    (0 : Int) < 2 ∧ (2 : Int) < (sampleRecords.length : Int) ∧
    Query sampleUpstream ⟨"http://am"⟩ ⟨[], [], ⟨"", "", ""⟩, 2⟩
      = Except.ok ((sampleRecords.take 2).map (convertAlertmanagerAlert sampleUpstream.parseTime)) :=
  ⟨rfl, rfl, by decide, by decide,
    ((C11_query_limit sampleUpstream ⟨"http://am"⟩ ⟨[], [], ⟨"", "", ""⟩, 2⟩ "body"
      sampleRecords rfl rfl).1 ⟨by decide, by decide⟩).1⟩

/-- C12: conversion is total and never fails on the timestamps: created-at is
the zero time when the start timestamp does not parse and the parsed time
when it does, updated-at likewise for the update timestamp; the outcome of
parsing one timestamp changes neither the other timestamp nor any other field
of the converted alert. -/
theorem C12_timestamps_degrade (parseTime : String → Option Time) (am : alertmanagerAlert) :
    (parseTime am.StartsAt = none →
      (convertAlertmanagerAlert parseTime am).CreatedAt = Time.zero) ∧
    (∀ t, parseTime am.StartsAt = some t →
      (convertAlertmanagerAlert parseTime am).CreatedAt = t) ∧
    (parseTime am.UpdatedAt = none →
      (convertAlertmanagerAlert parseTime am).UpdatedAt = Time.zero) ∧
    (∀ t, parseTime am.UpdatedAt = some t →
      (convertAlertmanagerAlert parseTime am).UpdatedAt = t) ∧
    (∀ other : String → Option Time,
      (other am.StartsAt = parseTime am.StartsAt →
        (convertAlertmanagerAlert other am).CreatedAt
          = (convertAlertmanagerAlert parseTime am).CreatedAt) ∧
      (other am.UpdatedAt = parseTime am.UpdatedAt →
        (convertAlertmanagerAlert other am).UpdatedAt
          = (convertAlertmanagerAlert parseTime am).UpdatedAt) ∧
      (convertAlertmanagerAlert other am).ID = (convertAlertmanagerAlert parseTime am).ID ∧
      (convertAlertmanagerAlert other am).Title = (convertAlertmanagerAlert parseTime am).Title ∧
      (convertAlertmanagerAlert other am).Description
        = (convertAlertmanagerAlert parseTime am).Description ∧
      (convertAlertmanagerAlert other am).Status
        = (convertAlertmanagerAlert parseTime am).Status ∧
      (convertAlertmanagerAlert other am).Severity
        = (convertAlertmanagerAlert parseTime am).Severity ∧
      (convertAlertmanagerAlert other am).Service
        = (convertAlertmanagerAlert parseTime am).Service ∧
      (convertAlertmanagerAlert other am).URL = (convertAlertmanagerAlert parseTime am).URL ∧
      (convertAlertmanagerAlert other am).Fields
        = (convertAlertmanagerAlert parseTime am).Fields ∧
      (convertAlertmanagerAlert other am).Metadata
        = (convertAlertmanagerAlert parseTime am).Metadata) := by
  refine ⟨fun h => ?_, fun t h => ?_, fun h => ?_, fun t h => ?_, fun other => ?_⟩
  · rw [convert_createdAt, h]; rfl
  · rw [convert_createdAt, h]; rfl
  · rw [convert_updatedAt, h]; rfl
  · rw [convert_updatedAt, h]; rfl
  · obtain ⟨a1, a2, a3, a4, a5, a6, a7, a8, a9⟩ := convert_fields parseTime am
    obtain ⟨b1, b2, b3, b4, b5, b6, b7, b8, b9⟩ := convert_fields other am
    refine ⟨fun h => ?_, fun h => ?_, ?_, ?_, ?_, ?_, ?_, ?_, ?_, ?_, ?_⟩
    · rw [convert_createdAt, convert_createdAt, h]
    · rw [convert_updatedAt, convert_updatedAt, h]
    · rw [a1, b1]
    · rw [a2, b2]
    · rw [a3, b3]
    · rw [a4, b4]
    · rw [a5, b5]
    · rw [a6, b6]
    · rw [a7, b7]
    · rw [a8, b8]
    · rw [a9, b9]

/-- Witness of C12: the start timestamp does not parse and the update timestamp
does; created-at is the zero time and updated-at the parsed time. -/
theorem C12_timestamps_degrade_witness :
    (convertAlertmanagerAlert
      (fun s => if s = "2025-12-03T10:05:00Z" then some ⟨63900353100000000000⟩ else none)
      ⟨"abc123", "active", [], [], "yesterday", "", "2025-12-03T10:05:00Z"⟩).CreatedAt
      = Time.zero ∧
    (convertAlertmanagerAlert
      (fun s => if s = "2025-12-03T10:05:00Z" then some ⟨63900353100000000000⟩ else none)
      ⟨"abc123", "active", [], [], "yesterday", "", "2025-12-03T10:05:00Z"⟩).UpdatedAt
      = ⟨63900353100000000000⟩ :=
  ⟨(C12_timestamps_degrade
      (fun s => if s = "2025-12-03T10:05:00Z" then some ⟨63900353100000000000⟩ else none)
      ⟨"abc123", "active", [], [], "yesterday", "", "2025-12-03T10:05:00Z"⟩).1 (by decide),
   (C12_timestamps_degrade
      (fun s => if s = "2025-12-03T10:05:00Z" then some ⟨63900353100000000000⟩ else none)
      ⟨"abc123", "active", [], [], "yesterday", "", "2025-12-03T10:05:00Z"⟩).2.2.2.1 _
      (by decide)⟩

/-! ## Lemmas on the metric conversion and the constructors -/

theorem lookup_mapSet {V : Type} (m : GoMap V) (k : String) (v : V) (key : String) :
    (mapSet m k v).lookup key = if key = k then some v else m.lookup key := by
  induction m with
  | nil =>
    by_cases h : key = k
    · simp [mapSet, List.lookup, h]
    · simp [mapSet, List.lookup, h, beq_eq_false_iff_ne.mpr h]
  | cons kv rest ih =>
    obtain ⟨k0, v0⟩ := kv
    by_cases h0 : k0 = k
    · subst h0
      by_cases h : key = k0
      · simp [mapSet, List.lookup, h]
      · simp [mapSet, List.lookup, h, beq_eq_false_iff_ne.mpr h]
    · by_cases h : key = k0
      · subst h
        simp [mapSet, List.lookup, h0]
      · simp [mapSet, List.lookup, h0, ih, beq_eq_false_iff_ne.mpr h]

theorem lookup_none_of_not_key {V : Type} (m : GoMap V) (key : String)
    (h : key ∉ m.map Prod.fst) : m.lookup key = none := by
  induction m with
  | nil => rfl
  | cons kv rest ih =>
    obtain ⟨k0, v0⟩ := kv
    simp only [List.map_cons, List.mem_cons, not_or] at h
    simp [List.lookup, beq_eq_false_iff_ne.mpr h.1, ih h.2]

/-- The label loop of `convertResult`, started from the labels `acc`. -/
theorem lookup_label_loop (metric : GoMap String) (acc : GoMap GoAny) (key : String)
    (hd : DistinctKeys metric) :
    (metric.foldl
      (fun (labels : GoMap GoAny) (kv : String × String) =>
        if kv.1 ≠ "__name__" then mapSet labels kv.1 (GoAny.str kv.2) else labels) acc).lookup key
      = if key = "__name__" then acc.lookup key
        else match metric.lookup key with
          | some v => some (GoAny.str v)
          | none => acc.lookup key := by
  induction metric generalizing acc with
  | nil => simp [List.lookup]
  | cons kv rest ih =>
    obtain ⟨k0, v0⟩ := kv
    have hd2 : k0 ∉ rest.map Prod.fst ∧ DistinctKeys rest := by
      simpa [DistinctKeys] using hd
    rw [List.foldl_cons, ih _ hd2.2]
    by_cases hn : key = "__name__"
    · subst hn
      by_cases h0 : k0 = "__name__"
      · simp [h0]
      · have : ¬ "__name__" = k0 := fun e => h0 e.symm
        simp [h0, lookup_mapSet, this]
    · by_cases hk : key = k0
      · subst hk
        simp [hn, lookup_none_of_not_key rest key hd2.1, lookup_mapSet, List.lookup]
      · by_cases h0 : k0 = "__name__"
        · simp [hn, h0, List.lookup, beq_eq_false_iff_ne.mpr hn]
        · simp [hn, h0, List.lookup, beq_eq_false_iff_ne.mpr hk, lookup_mapSet, hk]

/-- On a matrix with no nil pointer the stream loop converts every stream. -/
theorem convertStreams_of_streams (streams : List SampleStream) (acc : List MetricSeries) :
    convertStreams (streams.map some) acc = GoResult.ok (acc ++ streams.map convertStream) := by
  induction streams generalizing acc with
  | nil => simp [convertStreams]
  | cons st rest ih => simp [convertStreams, ih]

/-- The stream loop returns series only on a matrix with no nil pointer. -/
theorem convertStreams_ok (m : List (Option SampleStream)) (acc series : List MetricSeries)
    (h : convertStreams m acc = GoResult.ok series) :
    ∃ streams : List SampleStream, m = streams.map some := by
  induction m generalizing acc with
  | nil => exact ⟨[], rfl⟩
  | cons st rest ih =>
    cases st with
    | none => simp [convertStreams] at h
    | some stream =>
      simp only [convertStreams] at h
      obtain ⟨streams, hst⟩ := ih _ h
      exact ⟨stream :: streams, by rw [hst]; rfl⟩

theorem modelTimeToTime_nsec (t : Int) :
    (modelTimeToTime t).nsec = 62135596800 * 1000000000 + t * 1000000 := by
  have h := Int.tdiv_add_tmod t 1000
  simp only [modelTimeToTime, unixTime]
  omega

theorem assertString_of_noStringAt (config : GoMap GoAny) (key : String)
    (h : NoStringAt config key) :
    ¬ (assertString (config.lookup key)).2 = true ∨ (assertString (config.lookup key)).1 = "" := by
  rcases h with h | ⟨v, hv, hs⟩ | h
  · simp [h, assertString]
  · rw [hv]
    cases v <;> simp [assertString]
    exact absurd rfl (hs _)
  · simp [h, assertString]

/-! ## Claims on the metric conversion, `Describe` and the constructors -/

/-- C14: for every list of names the label-values call returns and every scope,
`Describe` returns the descriptors of those names in the same order, each with
type `unknown`; an empty name list gives an empty descriptor list and no
error, and the result does not depend on the scope. -/
theorem C14_describe_wraps_names (api : API) (scope : QueryScope)
    (names warnings : List String)
    (h : api.LabelValues "__name__" [] Time.zero Time.zero = Except.ok (names, warnings)) :
    Describe ⟨api⟩ scope
      = Except.ok (names.map (fun n => ({ Name := n, Type_ := "unknown" } : MetricDescriptor))) ∧
    (names.map (fun n => ({ Name := n, Type_ := "unknown" } : MetricDescriptor))).length
      = names.length ∧
    (∀ i : Nat,
      (names.map (fun n => ({ Name := n, Type_ := "unknown" } : MetricDescriptor)))[i]?
        = (names[i]?).map (fun n => ({ Name := n, Type_ := "unknown" } : MetricDescriptor))) ∧
    (names = [] → Describe ⟨api⟩ scope = Except.ok []) ∧
    (∀ other : QueryScope, Describe ⟨api⟩ other = Describe ⟨api⟩ scope) := by
  have hd : Describe ⟨api⟩ scope
      = Except.ok (names.map (fun n => ({ Name := n, Type_ := "unknown" } : MetricDescriptor))) := by
    simp [Describe, h, foldl_snoc_eq_map]
  refine ⟨hd, List.length_map _ _, fun i => List.getElem?_map _ _ _, fun hn => ?_, fun _ => rfl⟩
  rw [hd, hn]
  rfl

/-- Witness of C14: the two names of the repository's test, with two scopes. -/
theorem C14_describe_wraps_names_witness :
    sampleAPI.LabelValues "__name__" [] Time.zero Time.zero
      = Except.ok (["http_requests_total", "go_goroutines"], []) ∧
    Describe ⟨sampleAPI⟩ ⟨"api", "", "prod"⟩
      = Except.ok [⟨"http_requests_total", "unknown"⟩, ⟨"go_goroutines", "unknown"⟩] :=
  ⟨rfl, (C14_describe_wraps_names sampleAPI ⟨"api", "", "prod"⟩
    ["http_requests_total", "go_goroutines"] [] rfl).1⟩

/-- C15: `NewPrometheusAlertProvider` returns the missing-field error whenever
the configuration has no non-empty string under `alertmanagerURL` (key absent,
value not a string, or empty string) and succeeds for every non-empty string;
`NewPrometheusProvider` returns the missing-field error whenever the
configuration has no non-empty string under `url`. -/
theorem C15_constructors_reject {Client : Type} (NewClient : String → Except String Client)
    (NewAPI : Client → API) (config : GoMap GoAny) :
    (NoStringAt config "alertmanagerURL" →
      NewPrometheusAlertProvider config
        = Except.error "missing required config field: alertmanagerURL") ∧
    (∀ s, s ≠ "" → config.lookup "alertmanagerURL" = some (GoAny.str s) →
      NewPrometheusAlertProvider config = Except.ok ⟨s⟩) ∧
    (NoStringAt config "url" →
      NewPrometheusProvider NewClient NewAPI config
        = Except.error "missing required config field: url") := by
  refine ⟨fun h => ?_, fun s hs hl => ?_, fun h => ?_⟩
  · have ha := assertString_of_noStringAt config "alertmanagerURL" h
    unfold NewPrometheusAlertProvider
    simp only []
    rw [if_pos ha]
  · simp [NewPrometheusAlertProvider, hl, assertString, hs]
  · have ha := assertString_of_noStringAt config "url" h
    unfold NewPrometheusProvider
    simp only []
    rw [if_pos ha]

/-- Witness of C15: the number 123 under `url` is rejected, as in the
repository's test, and a non-empty `alertmanagerURL` is accepted. -/
theorem C15_constructors_reject_witness :
    NewPrometheusProvider (fun address => (Except.ok address : Except String String))
      (fun _ => sampleAPI) [("url", GoAny.num 123)]
      = Except.error "missing required config field: url" ∧
    NewPrometheusAlertProvider [("alertmanagerURL", GoAny.str "http://localhost:9093")]
      = Except.ok ⟨"http://localhost:9093"⟩ ∧
    NewPrometheusAlertProvider []
      = Except.error "missing required config field: alertmanagerURL" :=
  ⟨(C15_constructors_reject (fun address => (Except.ok address : Except String String))
      (fun _ => sampleAPI) [("url", GoAny.num 123)]).2.2
      (Or.inr (Or.inl ⟨GoAny.num 123, rfl, fun _ h => GoAny.noConfusion h⟩)),
   (C15_constructors_reject (fun address => (Except.ok address : Except String String))
      (fun _ => sampleAPI) [("alertmanagerURL", GoAny.str "http://localhost:9093")]).2.1
      "http://localhost:9093" (by decide) rfl,
   (C15_constructors_reject (fun address => (Except.ok address : Except String String))
      (fun _ => sampleAPI) []).1 (Or.inl rfl)⟩

/-! ## Claim on the two status mappings -/

/-- C16: mapping a query status to an Alertmanager state and that state back
gives the original status exactly for the strings other than open, active,
resolved, closed and unprocessed; firing, suppressed and pending map back to
themselves, and resolved and closed come back as suppressed. -/
theorem C16_status_round_trip (s : String) :
    (mapAlertmanagerStateToStatus (mapStatusToAlertmanager s) = s
      ↔ s ∉ ["open", "active", "resolved", "closed", "unprocessed"]) ∧
    mapAlertmanagerStateToStatus (mapStatusToAlertmanager "firing") = "firing" ∧
    mapAlertmanagerStateToStatus (mapStatusToAlertmanager "suppressed") = "suppressed" ∧
    mapAlertmanagerStateToStatus (mapStatusToAlertmanager "pending") = "pending" ∧
    mapAlertmanagerStateToStatus (mapStatusToAlertmanager "resolved") = "suppressed" ∧
    mapAlertmanagerStateToStatus (mapStatusToAlertmanager "closed") = "suppressed" := by
  refine ⟨?_, by decide, by decide, by decide, by decide, by decide⟩
  by_cases h1 : s = "firing"
  · subst h1; decide
  by_cases h2 : s = "open"
  · subst h2; decide
  by_cases h3 : s = "active"
  · subst h3; decide
  by_cases h4 : s = "resolved"
  · subst h4; decide
  by_cases h5 : s = "closed"
  · subst h5; decide
  by_cases h6 : s = "suppressed"
  · subst h6; decide
  by_cases h7 : s = "unprocessed"
  · subst h7; decide
  simp [mapStatusToAlertmanager, mapAlertmanagerStateToStatus, h1, h2, h3, h4, h5, h6, h7]

/-- Witness of C16: open does not come back as open, acknowledged does. -/
theorem C16_status_round_trip_witness :
    mapAlertmanagerStateToStatus (mapStatusToAlertmanager "open") ≠ "open" ∧
    mapAlertmanagerStateToStatus (mapStatusToAlertmanager "acknowledged") = "acknowledged" :=
  ⟨fun h => absurd ((C16_status_round_trip "open").1.mp h) (by decide),
   (C16_status_round_trip "acknowledged").1.mpr (by decide)⟩

end Prometheus
